import Mathlib

/-!
Shallow embedding of the Terrapane `memory_manager` library
(`src/memory_manager.cpp`, `include/terra/memory_manager/memory_manager.h`,
and the container-allocator adapter `memory_allocator.h`).

Modelling conventions:
* Machine integers (`std::size_t`, `std::uint64_t`) are `Nat`; 64-bit pointer
  arithmetic is made explicit with `% 2 ^ 64` where the source can wrap.
* A raw memory block is identified by the address returned by the system
  allocator (`Nat`).  The per-class free pool `allocations[index]` is a
  `List Nat` whose last element is the back of the C++ `std::vector`.
* The system allocator is modelled by a fresh-address counter `nextAddr`;
  `delete[]` calls are recorded in the `heapFreed` log so that "released to
  the system allocator" is observable.
* `Free` receives, besides the pointer value, the contents the source would
  read from memory: the header fields found at the computed header address
  (`FreeRequest`), and a function `mem` giving the 64-bit word stored at any
  address (used for the trailer-marker load, whose address depends on the
  profile entry selected by the header's index).
* An out-of-bounds `std::vector::operator[]` access (possible in `Free` when
  the profile is empty) is undefined behaviour and is modelled by `none`.
* `operator new[]` reports failure by throwing `std::bad_alloc`; the variant
  `performAllocationE`/`AllocateE` models this with `Except Unit`, a `Bool`
  oracle saying whether the system allocation succeeds.  The plain
  `performAllocation`/`Allocate` functions are the same code under the
  assumption that the system allocator never fails (shown equivalent in
  `allocateE_ok_of_sysOk`).
-/

namespace MemMgr

/-- Mirror of `struct MemoryDescriptor` from `memory_manager.h`. -/
structure MemoryDescriptor where
  size : Nat
  minimum : Nat
  maximum : Nat
  excess_allowed : Bool
deriving DecidableEq, Repr

/-- Mirror of `struct Statistics` from `memory_manager.h`. -/
structure Statistics where
  size : Nat
  allocations : Nat
  deallocations : Nat
  corruption_count : Nat
  max_outstanding : Nat
  outstanding : Nat
  unfulfilled : Nat
deriving DecidableEq, Repr

/-- A `Statistics` record with every counter zeroed, as produced by
`Statistics{}` in the constructor. -/
def zeroStatistics : Statistics :=
  { size := 0, allocations := 0, deallocations := 0, corruption_count := 0,
    max_outstanding := 0, outstanding := 0, unfulfilled := 0 }

/-- Header marker constant `Header_Marker_Value` from `memory_manager.cpp`. -/
def Header_Marker_Value : Nat := 0xC1F03D8B4A725378

/-- Trailer marker constant `Trailer_Marker_Value` from `memory_manager.cpp`. -/
def Trailer_Marker_Value : Nat := 0x215F8A1A6853658B

/-- Byte size of `struct MemoryHeader` (a pointer, a `std::size_t` and a
`std::uint64_t` on an LP64 platform). -/
def headerSize : Nat := 24

/-- Byte size of `struct MemoryTrailer` (one `std::uint64_t`). -/
def trailerSize : Nat := 8

/-- Size of the 64-bit address space, for explicit pointer wraparound. -/
def twoPow64 : Nat := 2 ^ 64

/-- The mutable state of a `MemoryManager` object: the (sorted) profile, the
per-class statistics, the per-class free pools of raw block addresses, the
system allocator's fresh-address counter, and the log of blocks released
back to the heap with `delete[]`. -/
structure MMState where
  profile : List MemoryDescriptor
  statistics : List Statistics
  allocations : List (List Nat)
  nextAddr : Nat
  heapFreed : List Nat
deriving DecidableEq, Repr

/-- Free pool of class `i` (`allocations[i]`); callers index in range. -/
def MMState.pool (s : MMState) (i : Nat) : List Nat :=
  s.allocations.getD i []

/-- Statistics entry of class `i` (`statistics[i]`); callers index in range. -/
def MMState.stat (s : MMState) (i : Nat) : Statistics :=
  s.statistics.getD i zeroStatistics

/-- Index alignment of the three per-class collections, maintained by the
constructor and every operation. -/
def WF (s : MMState) : Prop :=
  s.statistics.length = s.profile.length ∧
  s.allocations.length = s.profile.length

instance (s : MMState) : Decidable (WF s) := by
  unfold WF; infer_instance

/-- The growth gate at the top of `MemoryManager::PerformAllocation`:
`(profile[index].maximum != 0) && (!profile[index].excess_allowed) &&
((allocations[index].size() + statistics[index].outstanding) >=
profile[index].maximum)`. -/
def growthRefused (d : MemoryDescriptor) (poolSize outstanding : Nat) : Bool :=
  (d.maximum != 0) && (!d.excess_allowed) &&
    decide (poolSize + outstanding ≥ d.maximum)

/-- Mirror of `MemoryManager::PerformAllocation(index)` under the assumption
that the system allocator succeeds (see `performAllocationE` for the
throwing-`new` behaviour).  On success the fresh block is pushed onto the
back of class `index`'s free pool; its header and trailer are stamped with
the marker constants (those contents reach `Free` through its
`FreeRequest`/`mem` arguments).  Callers always pass an in-range index. -/
def performAllocation (s : MMState) (index : Nat) : Bool × MMState :=
  match s.profile[index]? with
  | none => (false, s)
  | some d =>
    if growthRefused d (s.pool index).length (s.stat index).outstanding then
      (false, s)
    else
      (true,
        { s with
          allocations := s.allocations.set index (s.pool index ++ [s.nextAddr]),
          nextAddr := s.nextAddr + (headerSize + d.size + trailerSize) })

/-- The `statistics[index].unfulfilled++` update in `MemoryManager::Allocate`
when a class's pool is empty and `PerformAllocation` fails. -/
def bumpUnfulfilled (s : MMState) (index : Nat) : MMState :=
  { s with
    statistics := s.statistics.set index
      (let st := s.stat index
       { st with unfulfilled := st.unfulfilled + 1 }) }

/-- The statistics update on a successful allocation from class `index`:
`allocations++`, `outstanding++`, `max_outstanding := max(outstanding,
max_outstanding)` (with the already incremented `outstanding`). -/
def bumpAllocated (st : Statistics) : Statistics :=
  { st with
    allocations := st.allocations + 1,
    outstanding := st.outstanding + 1,
    max_outstanding := max (st.outstanding + 1) st.max_outstanding }

/-- The `allocations[index].empty() && !PerformAllocation(index)` test of
the `Allocate` loop with its short-circuit `&&`: when the pool is non-empty
`PerformAllocation` is not called and the state is untouched; the `Bool`
result is `false` exactly when the pool was empty and growth failed. -/
def allocateStep (s : MMState) (index : Nat) : Bool × MMState :=
  if (s.pool index).isEmpty then performAllocation s index else (true, s)

/-- The loop body of `MemoryManager::Allocate`, scanning classes from `index`
upward; `fuel` bounds the number of remaining iterations (instantiated with
`profile.length`, enough to reach the end of the table).  Faithful to the
source: a class smaller than the request is skipped; an empty pool triggers
`PerformAllocation` (short-circuit `&&` via `allocateStep`), whose failure
bumps `unfulfilled` and continues; otherwise the (now) non-empty pool is
double-checked and its back element popped. -/
def allocateAux (size : Nat) : MMState → Nat → Nat → Option Nat × MMState
  | s, _, 0 => (none, s)
  | s, index, fuel + 1 =>
    match s.profile[index]? with
    | none => (none, s)
    | some d =>
      if d.size < size then
        allocateAux size s (index + 1) fuel
      else
        if !(allocateStep s index).1 then
          allocateAux size (bumpUnfulfilled (allocateStep s index).2 index)
            (index + 1) fuel
        else
          match ((allocateStep s index).2.pool index).getLast? with
          | none => allocateAux size (allocateStep s index).2 (index + 1) fuel
          | some b =>
            (some (b + headerSize),
              { (allocateStep s index).2 with
                statistics := (allocateStep s index).2.statistics.set index
                  (bumpAllocated ((allocateStep s index).2.stat index)),
                allocations := (allocateStep s index).2.allocations.set index
                  ((allocateStep s index).2.pool index).dropLast })

/-- Mirror of `MemoryManager::Allocate(size)` (system allocator assumed to
succeed). Returns the payload pointer (block address plus `headerSize`) or
`none` for the `nullptr` failure sentinel, together with the new state. -/
def Allocate (s : MMState) (size : Nat) : Option Nat × MMState :=
  allocateAux size s 0 s.profile.length

/-- The data `MemoryManager::Free(p)` reads from the caller and from the
header at `p - sizeof(MemoryHeader)`: the raw pointer value, whether
`header->memory_manager` equals this manager, `header->marker`, and
`header->index`. -/
structure FreeRequest where
  p : Nat
  owner_ok : Bool
  header_marker : Nat
  index : Nat
deriving DecidableEq, Repr

/-- The header address computed at the top of `Free`:
`p - sizeof(MemoryHeader)` in 64-bit pointer arithmetic. -/
def blockOf (p : Nat) : Nat :=
  (p + twoPow64 - headerSize) % twoPow64

/-- Mirror of `MemoryManager::Free(p)`.  `mem a` is the 64-bit word stored at
address `a` (used for the trailer-marker load at
`block + sizeof(MemoryHeader) + profile[header->index].size`).  The result is
`none` when the source performs an out-of-bounds `std::vector` access
(undefined behaviour: empty profile slipping past the
`!profile.empty() && index > profile.size() - 1` guard), otherwise
`some (returnValue, newState)`. -/
def Free (s : MMState) (a : FreeRequest) (mem : Nat → Nat) :
    Option (Bool × MMState) :=
  let block := blockOf a.p
  if block == 0 || block > a.p then
    some (false, s)
  else if !a.owner_ok then
    some (false, s)
  else
    let bad1 : Bool := a.header_marker != Header_Marker_Value
    if !s.profile.isEmpty && a.index > s.profile.length - 1 then
      some (true, { s with heapFreed := s.heapFreed ++ [block] })
    else
      match s.profile[a.index]? with
      | none => none
      | some d =>
        let bad : Bool := bad1 ||
          (mem (block + headerSize + d.size) != Trailer_Marker_Value)
        let st := s.stat a.index
        let st1 :=
          { st with
            deallocations := st.deallocations + 1,
            outstanding := if st.outstanding > 0 then st.outstanding - 1
                           else st.outstanding }
        if bad then
          some (true,
            { s with
              statistics := s.statistics.set a.index
                { st1 with corruption_count := st1.corruption_count + 1 },
              heapFreed := s.heapFreed ++ [block] })
        else if d.maximum == 0 || (s.pool a.index).length < d.maximum then
          some (true,
            { s with
              statistics := s.statistics.set a.index st1,
              allocations := s.allocations.set a.index
                (s.pool a.index ++ [block]) })
        else
          some (true,
            { s with
              statistics := s.statistics.set a.index st1,
              heapFreed := s.heapFreed ++ [block] })

/-- Mirror of `MemoryManager::PerformAllocation(index)` with the real
behaviour of `operator new[]`: on system-allocator failure (`sysOk = false`)
the `new` expression throws `std::bad_alloc`, modelled as `Except.error ()`.
The `if (block == nullptr)` branch in the source is unreachable because a
plain (non-`nothrow`) `new` never returns a null pointer. -/
def performAllocationE (s : MMState) (index : Nat) (sysOk : Bool) :
    Except Unit (Bool × MMState) :=
  match s.profile[index]? with
  | none => Except.ok (false, s)
  | some d =>
    if growthRefused d (s.pool index).length (s.stat index).outstanding then
      Except.ok (false, s)
    else if !sysOk then
      Except.error ()
    else
      Except.ok (true,
        { s with
          allocations := s.allocations.set index (s.pool index ++ [s.nextAddr]),
          nextAddr := s.nextAddr + (headerSize + d.size + trailerSize) })

/-- The pool-or-grow step with throwing-`new` semantics. -/
def allocateStepE (s : MMState) (index : Nat) (sysOk : Bool) :
    Except Unit (Bool × MMState) :=
  if (s.pool index).isEmpty then performAllocationE s index sysOk
  else Except.ok (true, s)

/-- The `MemoryManager::Allocate` loop with the throwing-`new` semantics of
`performAllocationE`: an uncaught `std::bad_alloc` propagates out of
`Allocate` (there is no try/catch anywhere in the source). -/
def allocateAuxE (size : Nat) (sysOk : Bool) :
    MMState → Nat → Nat → Except Unit (Option Nat × MMState)
  | s, _, 0 => Except.ok (none, s)
  | s, index, fuel + 1 =>
    match s.profile[index]? with
    | none => Except.ok (none, s)
    | some d =>
      if d.size < size then
        allocateAuxE size sysOk s (index + 1) fuel
      else
        match allocateStepE s index sysOk with
        | Except.error e => Except.error e
        | Except.ok grown =>
          if !grown.1 then
            allocateAuxE size sysOk (bumpUnfulfilled grown.2 index) (index + 1) fuel
          else
            let s1 := grown.2
            match (s1.pool index).getLast? with
            | none => allocateAuxE size sysOk s1 (index + 1) fuel
            | some b =>
              Except.ok (some (b + headerSize),
                { s1 with
                  statistics := s1.statistics.set index (bumpAllocated (s1.stat index)),
                  allocations := s1.allocations.set index (s1.pool index).dropLast })

/-- Mirror of `MemoryManager::Allocate(size)` with throwing `new`. -/
def AllocateE (s : MMState) (size : Nat) (sysOk : Bool) :
    Except Unit (Option Nat × MMState) :=
  allocateAuxE size sysOk s 0 s.profile.length

/-- Outcome of the adapter's `MemoryAllocator<T>::allocate(n)`
(`memory_allocator.h`): either it throws `std::bad_array_new_length`, or it
returns to the container whatever pointer value the engine produced (`none`
standing for the engine's `nullptr` failure sentinel cast to `T *`). -/
inductive AdapterOutcome where
  | threwBadArrayLength : AdapterOutcome
  | returned : Option Nat → AdapterOutcome
deriving DecidableEq, Repr

/-- Value of `std::numeric_limits<std::size_t>::max()` on a 64-bit platform. -/
def sizeTMax : Nat := 2 ^ 64 - 1

/-- Mirror of `MemoryAllocator<T>::allocate(n)`: throw
`std::bad_array_new_length` when `n > SIZE_MAX / sizeof(T)`, otherwise
return `static_cast<T *>(memory_manager->Allocate(sizeof(T) * n))` — the
engine's result is returned unconditionally, whatever it is.
`engineAllocate` abstracts `memory_manager->Allocate`; `sizeofT` is
`sizeof(T)` (positive in C++). -/
def allocatorAllocate (sizeofT : Nat) (engineAllocate : Nat → Option Nat)
    (n : Nat) : AdapterOutcome :=
  if n > sizeTMax / sizeofT then
    AdapterOutcome.threwBadArrayLength
  else
    AdapterOutcome.returned (engineAllocate (sizeofT * n))

/-- The repair applied to each descriptor by the constructor: if
`maximum != 0 && maximum < minimum`, set `maximum := minimum`. -/
def repairDescriptor (d : MemoryDescriptor) : MemoryDescriptor :=
  if d.maximum ≠ 0 ∧ d.maximum < d.minimum then
    { d with maximum := d.minimum }
  else d

/-- The constructor's inner preallocation loop: `minimum` calls of
`PerformAllocation(index)` (system allocator assumed to succeed). -/
def preallocate (index : Nat) : MMState → Nat → MMState
  | s, 0 => s
  | s, n + 1 => preallocate index ((performAllocation s index).2) n

/-- One iteration of the constructor's main loop for `index`: repair the
descriptor in place, append a zeroed `Statistics` carrying the descriptor's
size, append an empty free pool, then preallocate `minimum` blocks. -/
def constructStep (s : MMState) (index : Nat) : MMState :=
  match s.profile[index]? with
  | none => s
  | some d =>
    let d1 := repairDescriptor d
    let s1 :=
      { s with
        profile := s.profile.set index d1,
        statistics := s.statistics ++ [{ zeroStatistics with size := d1.size }],
        allocations := s.allocations ++ [[]] }
    preallocate index s1 d1.minimum

/-- The constructor's main loop over all profile indices. -/
def constructLoop : MMState → List Nat → MMState
  | s, [] => s
  | s, i :: rest => constructLoop (constructStep s i) rest

/-- The body of `MemoryManager::MemoryManager` after `std::sort`: start from
the sorted profile with empty statistics and pools, then run the main loop.
`startAddr` seeds the system allocator's address counter. -/
def constructFrom (sortedProfile : List MemoryDescriptor) (startAddr : Nat) :
    MMState :=
  constructLoop
    { profile := sortedProfile, statistics := [], allocations := [],
      nextAddr := startAddr, heapFreed := [] }
    (List.range sortedProfile.length)

/-- Sortedness with respect to the constructor's comparator
`a.size < b.size`: `std::sort` guarantees that no later element compares
less than an earlier one, i.e. sizes are non-decreasing. -/
def SortedBySize (l : List MemoryDescriptor) : Prop :=
  l.Pairwise (fun a b => a.size ≤ b.size)

/-- The contract of `std::sort(profile.begin(), profile.end(), cmp)` with
`cmp a b = a.size < b.size`: the output is a permutation of the input,
sorted with respect to the comparator.  The C++ standard guarantees nothing
more — in particular no stability — so the sort is modelled as this
relation between input and admissible outputs. -/
def StdSortOutcome (input output : List MemoryDescriptor) : Prop :=
  List.Perm input output ∧ SortedBySize output

instance (l : List MemoryDescriptor) : Decidable (SortedBySize l) := by
  unfold SortedBySize
  infer_instance

/-- Modelled from the spec: the stable ascending-by-size sort ("sorted
strictly ascending by `size` (ties broken by original order)"), written as a
stable insertion sort.  Used only to compare the spec's claimed ordering
against the `std::sort` contract. -/
def insertBySize (d : MemoryDescriptor) :
    List MemoryDescriptor → List MemoryDescriptor
  | [] => [d]
  | e :: rest =>
    if e.size < d.size then e :: insertBySize d rest else d :: e :: rest

/-- Modelled from the spec: stable sort by size (see `insertBySize`). -/
def stableSortBySize (l : List MemoryDescriptor) : List MemoryDescriptor :=
  l.foldr insertBySize []

/-! Helper lemmas about list indexing used throughout. -/

theorem getD_set_self {α : Type} (l : List α) (i : Nat) (a dflt : α)
    (h : i < l.length) : (l.set i a).getD i dflt = a := by
  simp [List.getD_eq_getElem?_getD, List.getElem?_set_self, h]

theorem getD_set_ne {α : Type} (l : List α) (i j : Nat) (a dflt : α)
    (h : i ≠ j) : (l.set i a).getD j dflt = l.getD j dflt := by
  simp [List.getD_eq_getElem?_getD, List.getElem?_set_ne, h]

/-- Characterisation of the growth gate. -/
theorem growthRefused_eq_true_iff (d : MemoryDescriptor) (p o : Nat) :
    growthRefused d p o = true ↔
      d.maximum ≠ 0 ∧ d.excess_allowed = false ∧ d.maximum ≤ p + o := by
  unfold growthRefused
  simp [Bool.and_eq_true, bne_iff_ne, Bool.not_eq_true', and_assoc, ge_iff_le]

/-- C3: the internal growth operation (`PerformAllocation`) refuses to grow
class `index`'s pool exactly when `maximum != 0 AND excess_allowed == false
AND (free-pool size + outstanding) >= maximum`; with `maximum == 0` or with
`excess_allowed == true` growth is never refused by policy; and in the
throwing-`new` model a policy refusal (`Except.ok (false, s)`) happens for
the same inputs regardless of whether the system allocator would succeed. -/
theorem c3_growth_gate (s : MMState) (index : Nat) (d : MemoryDescriptor)
    (hd : s.profile[index]? = some d) :
    ((performAllocation s index).1 = false ↔
        d.maximum ≠ 0 ∧ d.excess_allowed = false ∧
          d.maximum ≤ (s.pool index).length + (s.stat index).outstanding) ∧
    (d.maximum = 0 → (performAllocation s index).1 = true) ∧
    (d.excess_allowed = true → (performAllocation s index).1 = true) ∧
    (∀ sysOk : Bool,
        performAllocationE s index sysOk = Except.ok (false, s) ↔
          (performAllocation s index).1 = false) := by
  have hgate := growthRefused_eq_true_iff d (s.pool index).length
    (s.stat index).outstanding
  by_cases hg : growthRefused d (s.pool index).length
      (s.stat index).outstanding = true
  · refine ⟨?_, ?_, ?_, ?_⟩
    · simp only [performAllocation, hd, hg, if_true]
      simpa using hgate.mp hg
    · intro hmax
      rcases hgate.mp hg with ⟨hne, _, _⟩
      exact absurd hmax hne
    · intro hex
      rcases hgate.mp hg with ⟨_, hfalse, _⟩
      rw [hex] at hfalse
      cases hfalse
    · intro sysOk
      simp [performAllocationE, performAllocation, hd, hg]
  · refine ⟨?_, ?_, ?_, ?_⟩
    · simp only [performAllocation, hd, hg, if_false]
      constructor
      · intro hfalse
        cases hfalse
      · intro hcond
        exact absurd (hgate.mpr hcond) hg
    · intro _
      simp [performAllocation, hd, hg]
    · intro _
      simp [performAllocation, hd, hg]
    · intro sysOk
      cases sysOk <;> simp [performAllocationE, performAllocation, hd, hg]

/-- A concrete state for the `c3_growth_gate` witness: one class of size 64
with `maximum = 2`, `excess_allowed = false`, and two pooled blocks. -/
def c3State : MMState :=
  { profile := [⟨64, 0, 2, false⟩], statistics := [zeroStatistics],
    allocations := [[7, 8]], nextAddr := 0, heapFreed := [] }

/-- Descriptor of class 0 of `c3State`. -/
def c3Desc : MemoryDescriptor := ⟨64, 0, 2, false⟩

/-- Witness for `c3_growth_gate` at a concrete state. -/
theorem c3_growth_gate_witness :
    c3State.profile[0]? = some c3Desc ∧
    (((performAllocation c3State 0).1 = false ↔
        c3Desc.maximum ≠ 0 ∧ c3Desc.excess_allowed = false ∧
          c3Desc.maximum ≤ (c3State.pool 0).length + (c3State.stat 0).outstanding) ∧
      (c3Desc.maximum = 0 → (performAllocation c3State 0).1 = true) ∧
      (c3Desc.excess_allowed = true → (performAllocation c3State 0).1 = true) ∧
      (∀ sysOk : Bool,
          performAllocationE c3State 0 sysOk = Except.ok (false, c3State) ↔
            (performAllocation c3State 0).1 = false)) :=
  ⟨by decide, c3_growth_gate c3State 0 c3Desc (by decide)⟩

/-- Pointer arithmetic in `Free`: for a pointer strictly above the header
size and below the 64-bit limit, `p - sizeof(MemoryHeader)` does not wrap. -/
theorem blockOf_eq_sub (p : Nat) (h24 : headerSize ≤ p) (hlt : p < twoPow64) :
    blockOf p = p - headerSize := by
  unfold blockOf twoPow64 headerSize at *
  omega

/-- With `headerSize < p < 2^64` the initial null/wraparound check of `Free`
passes. -/
theorem free_wrap_check_passes (p : Nat) (h24 : headerSize < p)
    (hlt : p < twoPow64) :
    (blockOf p == 0 || decide (blockOf p > p)) = false := by
  have hb := blockOf_eq_sub p (Nat.le_of_lt h24) hlt
  rw [hb]
  unfold headerSize at *
  simp only [Bool.or_eq_false_iff, beq_eq_false_iff_ne, ne_eq,
    decide_eq_false_iff_not, not_lt]
  omega

/-- C5: a `Free` call rejected because the header-address computation wraps
(computed header address above `p`) or because the header's owner is not
this manager returns `false` and leaves the entire state — every statistics
counter, every free pool, the heap-release log — exactly unchanged. -/
theorem c5_rejected_free_no_mutation (s : MMState) (a : FreeRequest)
    (mem : Nat → Nat)
    (h : blockOf a.p > a.p ∨ a.owner_ok = false) :
    Free s a mem = some (false, s) := by
  unfold Free
  rcases h with h | h
  · have hc : (blockOf a.p == 0 || decide (blockOf a.p > a.p)) = true := by
      simp [h]
    simp only [hc, if_true]
  · by_cases hc : (blockOf a.p == 0 || decide (blockOf a.p > a.p)) = true
    · simp only [hc, if_true]
    · simp only [Bool.not_eq_true] at hc
      simp only [hc, Bool.false_eq_true, if_false, h, Bool.not_false, if_true]

/-- Witness for `c5_rejected_free_no_mutation`: freeing a foreign pointer. -/
theorem c5_rejected_free_no_mutation_witness :
    (blockOf 100 > 100 ∨ (false : Bool) = false) ∧
    Free c3State ⟨100, false, 0, 0⟩ (fun _ => 0) = some (false, c3State) :=
  ⟨Or.inr rfl,
    c5_rejected_free_no_mutation c3State ⟨100, false, 0, 0⟩ (fun _ => 0)
      (Or.inr rfl)⟩

/-- In-range header index: the `index > profile.size() - 1` branch of `Free`
is not taken. -/
theorem free_range_check_passes (s : MMState) (i : Nat)
    (h : i < s.profile.length) :
    (!s.profile.isEmpty && decide (i > s.profile.length - 1)) = false := by
  have : ¬ (i > s.profile.length - 1) := by omega
  simp [this]

/-- C4: an accepted `Free` whose header passes the owner check and whose
index is in range, but whose header marker or trailer marker (read at
`block + headerSize + classSize`) is wrong: `deallocations` is incremented,
`outstanding` is decremented unless already 0, `corruption_count` is
incremented, the block is released to the system allocator (appended to the
heap-release log, the free pool untouched), and `Free` returns `true`. -/
theorem c4_corrupt_block_free (s : MMState) (a : FreeRequest)
    (mem : Nat → Nat) (d : MemoryDescriptor)
    (h24 : headerSize < a.p) (hlt : a.p < twoPow64)
    (hown : a.owner_ok = true)
    (hd : s.profile[a.index]? = some d)
    (hbad : a.header_marker ≠ Header_Marker_Value ∨
      mem (blockOf a.p + headerSize + d.size) ≠ Trailer_Marker_Value) :
    Free s a mem =
      some (true,
        { s with
          statistics := s.statistics.set a.index
            { s.stat a.index with
              deallocations := (s.stat a.index).deallocations + 1,
              outstanding := if (s.stat a.index).outstanding > 0
                             then (s.stat a.index).outstanding - 1
                             else (s.stat a.index).outstanding,
              corruption_count := (s.stat a.index).corruption_count + 1 },
          heapFreed := s.heapFreed ++ [blockOf a.p] }) := by
  have hidx : a.index < s.profile.length := by
    have := List.getElem?_eq_some_iff.mp hd
    exact this.1
  have hwrap := free_wrap_check_passes a.p h24 hlt
  have hrange := free_range_check_passes s a.index hidx
  have hbadb : ((a.header_marker != Header_Marker_Value) ||
      (mem (blockOf a.p + headerSize + d.size) != Trailer_Marker_Value)) = true := by
    rcases hbad with h | h <;> simp [h]
  simp only [Free, hwrap, hown, hrange, hd, hbadb, Bool.not_true,
    Bool.false_eq_true, if_false, if_true]

/-- State for the C4 witness: one class, one outstanding block. -/
def c4State : MMState :=
  { profile := [⟨16, 0, 0, true⟩],
    statistics := [{ zeroStatistics with
        size := 16, allocations := 1, outstanding := 1, max_outstanding := 1 }],
    allocations := [[]], nextAddr := 200, heapFreed := [] }

/-- Witness for `c4_corrupt_block_free`: freeing block 100 (payload 124)
whose trailer word was overwritten with 0. -/
theorem c4_corrupt_block_free_witness :
    (headerSize < 124 ∧ 124 < twoPow64 ∧
      c4State.profile[0]? = some ⟨16, 0, 0, true⟩ ∧
      ((Header_Marker_Value ≠ Header_Marker_Value) ∨
        (fun _ => (0 : Nat)) (blockOf 124 + headerSize + 16) ≠ Trailer_Marker_Value)) ∧
    Free c4State ⟨124, true, Header_Marker_Value, 0⟩ (fun _ => 0) =
      some (true,
        { c4State with
          statistics := c4State.statistics.set 0
            { c4State.stat 0 with
              deallocations := (c4State.stat 0).deallocations + 1,
              outstanding := if (c4State.stat 0).outstanding > 0
                             then (c4State.stat 0).outstanding - 1
                             else (c4State.stat 0).outstanding,
              corruption_count := (c4State.stat 0).corruption_count + 1 },
          heapFreed := c4State.heapFreed ++ [blockOf 124] }) :=
  ⟨⟨by decide, by decide, by decide, by decide⟩,
    c4_corrupt_block_free c4State ⟨124, true, Header_Marker_Value, 0⟩
      (fun _ => 0) ⟨16, 0, 0, true⟩ (by decide) (by decide) rfl (by decide)
      (by decide)⟩

/-- C8 (amended): for a `Free` call that passes the wraparound and owner
checks, if the class table is non-empty and the header's `classIndex` is out
of range, the raw block is released to the system allocator and `Free`
reports success, with no statistics counter and no free pool of any class
modified; the result is the same for every memory content `mem`, so no
trailer or descriptor entry is read for the untrusted index.  (The claim's
empty-table case is refuted by `c8_counterexample_empty_table`.) -/
theorem c8_out_of_range_index_free (s : MMState) (a : FreeRequest)
    (mem : Nat → Nat)
    (h24 : headerSize < a.p) (hlt : a.p < twoPow64)
    (hown : a.owner_ok = true)
    (hne : s.profile ≠ []) (hout : s.profile.length ≤ a.index) :
    Free s a mem =
      some (true, { s with heapFreed := s.heapFreed ++ [blockOf a.p] }) := by
  have hwrap := free_wrap_check_passes a.p h24 hlt
  have hnonempty : s.profile.isEmpty = false := by
    cases hp : s.profile with
    | nil => exact absurd hp hne
    | cons x xs => rfl
  have hlen : 1 ≤ s.profile.length := by
    cases hp : s.profile with
    | nil => exact absurd hp hne
    | cons x xs => simp
  have hrange : (!s.profile.isEmpty &&
      decide (a.index > s.profile.length - 1)) = true := by
    have : a.index > s.profile.length - 1 := by omega
    simp [hnonempty, this]
  simp only [Free, hwrap, hown, hrange, Bool.not_true, Bool.false_eq_true,
    if_false, if_true]

/-- The state of a manager constructed from an empty profile. -/
def emptyProfileState : MMState :=
  { profile := [], statistics := [], allocations := [], nextAddr := 0,
    heapFreed := [] }

/-- A free request that passes the wraparound and owner checks against the
empty-profile manager (a corrupted or forged header claiming this owner). -/
def emptyProfileRequest : FreeRequest :=
  { p := 100, owner_ok := true, header_marker := Header_Marker_Value,
    index := 0 }

/-- C8 counterexample: with an empty class table, a `Free` call that passes
the wraparound and owner checks does not release the block and report
success as the claim states; the `!profile.empty()` short-circuit skips the
out-of-range early return and the source then evaluates
`profile[header->index]` on an empty `std::vector` — undefined behaviour,
modelled as `none`. -/
theorem c8_counterexample_empty_table :
    Free emptyProfileState emptyProfileRequest (fun _ => 0) = none := by
  decide

/-- Witness for `c8_out_of_range_index_free`: index 5 against a one-class
table. -/
theorem c8_out_of_range_index_free_witness :
    (headerSize < 124 ∧ 124 < twoPow64 ∧ c4State.profile ≠ [] ∧
      c4State.profile.length ≤ 5) ∧
    Free c4State ⟨124, true, Header_Marker_Value, 5⟩ (fun _ => 0) =
      some (true, { c4State with heapFreed := c4State.heapFreed ++ [blockOf 124] }) :=
  ⟨⟨by decide, by decide, by decide, by decide⟩,
    c8_out_of_range_index_free c4State ⟨124, true, Header_Marker_Value, 5⟩
      (fun _ => 0) (by decide) (by decide) rfl (by decide) (by decide)⟩

/-- A one-class state whose pool is empty, used for the C6 failing input. -/
def c6State : MMState :=
  { profile := [⟨64, 0, 0, true⟩],
    statistics := [{ zeroStatistics with size := 64 }],
    allocations := [[]], nextAddr := 1000, heapFreed := [] }

/-- C6 (failing input): with the real semantics of a plain (non-`nothrow`)
`new std::uint8_t[...]` — which throws `std::bad_alloc` on failure rather
than returning `nullptr` — a system-allocator failure while growing the pool
propagates out of `PerformAllocation` and `Allocate` as an exception
(`Except.error`): the `if (block == nullptr)` log-and-return-false branch in
the source is unreachable, no `unfulfilled` count is recorded, and no
`nullptr` is returned.  This contradicts the claim (and the source's own
documentation and dead error-handling branch), so the claim is a code bug,
not a property of the code. -/
theorem c6_bad_alloc_escapes_allocate :
    AllocateE c6State 10 false = Except.error () ∧
    performAllocationE c6State 0 false = Except.error () := by
  constructor
  · rfl
  · rfl

/-- C7 (failing input): the adapter `MemoryAllocator<T>::allocate(n)` throws
`std::bad_array_new_length` on multiplication overflow (second conjunct,
`sizeof(T) = 8`, `n = SIZE_MAX / 8 + 1`), but when the engine reports
allocation failure it does not signal out-of-memory: it returns the engine's
`nullptr` failure sentinel to the container unchecked (first conjunct),
contradicting the claim and the adapter's own documentation comment
("This function will throw an exception on failure"). -/
theorem c7_adapter_returns_null_on_engine_failure :
    allocatorAllocate 8 (fun _ => none) 1 = AdapterOutcome.returned none ∧
    allocatorAllocate 8 (fun _ => none) (sizeTMax / 8 + 1) =
      AdapterOutcome.threwBadArrayLength := by
  constructor
  · decide
  · decide

/-! Preservation lemmas: none of the allocation operations mutates the
profile, changes the lengths of the per-class tables, or releases blocks to
the heap. -/

theorem mem_of_getElemQ {α : Type} {l : List α} {i : Nat} {a : α}
    (h : l[i]? = some a) : a ∈ l := by
  rcases List.getElem?_eq_some_iff.mp h with ⟨hlt, heq⟩
  exact heq ▸ List.getElem_mem hlt

theorem getElemQ_of_mem {α : Type} {l : List α} {a : α} (h : a ∈ l) :
    ∃ i : Nat, l[i]? = some a := by
  rcases List.getElem_of_mem h with ⟨i, hi, heq⟩
  exact ⟨i, by rw [List.getElem?_eq_getElem hi, heq]⟩

theorem performAllocation_profile (s : MMState) (i : Nat) :
    (performAllocation s i).2.profile = s.profile := by
  unfold performAllocation
  split
  · rfl
  · split <;> rfl

theorem performAllocation_statistics (s : MMState) (i : Nat) :
    (performAllocation s i).2.statistics = s.statistics := by
  unfold performAllocation
  split
  · rfl
  · split <;> rfl

theorem performAllocation_heapFreed (s : MMState) (i : Nat) :
    (performAllocation s i).2.heapFreed = s.heapFreed := by
  unfold performAllocation
  split
  · rfl
  · split <;> rfl

theorem performAllocation_alloc_length (s : MMState) (i : Nat) :
    (performAllocation s i).2.allocations.length = s.allocations.length := by
  unfold performAllocation
  split
  · rfl
  · split
    · rfl
    · simp

theorem performAllocation_WF (s : MMState) (i : Nat) (h : WF s) :
    WF (performAllocation s i).2 := by
  constructor
  · rw [performAllocation_statistics, performAllocation_profile]
    exact h.1
  · rw [performAllocation_alloc_length, performAllocation_profile]
    exact h.2

theorem bumpUnfulfilled_profile (s : MMState) (i : Nat) :
    (bumpUnfulfilled s i).profile = s.profile := rfl

theorem bumpUnfulfilled_allocations (s : MMState) (i : Nat) :
    (bumpUnfulfilled s i).allocations = s.allocations := rfl

theorem bumpUnfulfilled_heapFreed (s : MMState) (i : Nat) :
    (bumpUnfulfilled s i).heapFreed = s.heapFreed := rfl

theorem bumpUnfulfilled_WF (s : MMState) (i : Nat) (h : WF s) :
    WF (bumpUnfulfilled s i) := by
  constructor
  · show (s.statistics.set i _).length = s.profile.length
    rw [List.length_set]
    exact h.1
  · exact h.2

theorem allocateStep_profile (s : MMState) (i : Nat) :
    (allocateStep s i).2.profile = s.profile := by
  unfold allocateStep
  split
  · exact performAllocation_profile s i
  · rfl

theorem allocateStep_statistics (s : MMState) (i : Nat) :
    (allocateStep s i).2.statistics = s.statistics := by
  unfold allocateStep
  split
  · exact performAllocation_statistics s i
  · rfl

theorem allocateStep_heapFreed (s : MMState) (i : Nat) :
    (allocateStep s i).2.heapFreed = s.heapFreed := by
  unfold allocateStep
  split
  · exact performAllocation_heapFreed s i
  · rfl

theorem allocateStep_WF (s : MMState) (i : Nat) (h : WF s) :
    WF (allocateStep s i).2 := by
  unfold allocateStep
  split
  · exact performAllocation_WF s i h
  · exact h

theorem allocateStep_alloc_length (s : MMState) (i : Nat) :
    (allocateStep s i).2.allocations.length = s.allocations.length := by
  unfold allocateStep
  split
  · exact performAllocation_alloc_length s i
  · rfl

theorem allocateAux_profile (size : Nat) :
    ∀ (fuel : Nat) (s : MMState) (index : Nat),
      (allocateAux size s index fuel).2.profile = s.profile := by
  intro fuel
  induction fuel with
  | zero => intro s index; rfl
  | succ n ih =>
    intro s index
    unfold allocateAux
    cases hd : s.profile[index]? with
    | none => rfl
    | some d =>
      simp only []
      by_cases hsz : d.size < size
      · simp only [if_pos hsz]
        exact ih s (index + 1)
      · simp only [if_neg hsz]
        by_cases hg : (allocateStep s index).1 = true
        · simp only [hg, Bool.not_true, Bool.false_eq_true, if_false]
          cases hl : ((allocateStep s index).2.pool index).getLast? with
          | none =>
            simp only [hl]
            rw [ih (allocateStep s index).2 (index + 1)]
            exact allocateStep_profile s index
          | some b =>
            simp only [hl]
            exact allocateStep_profile s index
        · simp only [Bool.not_eq_true] at hg
          simp only [hg, Bool.not_false, if_true]
          rw [ih (bumpUnfulfilled (allocateStep s index).2 index) (index + 1)]
          rw [bumpUnfulfilled_profile]
          exact allocateStep_profile s index

theorem allocateAux_WF (size : Nat) :
    ∀ (fuel : Nat) (s : MMState) (index : Nat), WF s →
      WF (allocateAux size s index fuel).2 := by
  intro fuel
  induction fuel with
  | zero => intro s index h; exact h
  | succ n ih =>
    intro s index hWF
    unfold allocateAux
    cases hd : s.profile[index]? with
    | none => exact hWF
    | some d =>
      simp only []
      by_cases hsz : d.size < size
      · simp only [if_pos hsz]
        exact ih s (index + 1) hWF
      · simp only [if_neg hsz]
        by_cases hg : (allocateStep s index).1 = true
        · simp only [hg, Bool.not_true, Bool.false_eq_true, if_false]
          cases hl : ((allocateStep s index).2.pool index).getLast? with
          | none =>
            simp only [hl]
            exact ih (allocateStep s index).2 (index + 1)
              (allocateStep_WF s index hWF)
          | some b =>
            simp only [hl]
            have h2 := allocateStep_WF s index hWF
            constructor
            · show ((allocateStep s index).2.statistics.set index _).length = _
              rw [List.length_set]
              exact h2.1
            · show ((allocateStep s index).2.allocations.set index _).length = _
              rw [List.length_set]
              exact h2.2
        · simp only [Bool.not_eq_true] at hg
          simp only [hg, Bool.not_false, if_true]
          exact ih (bumpUnfulfilled (allocateStep s index).2 index) (index + 1)
            (bumpUnfulfilled_WF (allocateStep s index).2 index
              (allocateStep_WF s index hWF))

theorem Allocate_profile (s : MMState) (size : Nat) :
    (Allocate s size).2.profile = s.profile :=
  allocateAux_profile size s.profile.length s 0

theorem Allocate_WF (s : MMState) (size : Nat) (h : WF s) :
    WF (Allocate s size).2 :=
  allocateAux_WF size s.profile.length s 0 h

/-- A class "allows excess" in the sense of C2: `excess_allowed` is set, or
`maximum == 0` (in which case `excess_allowed` is ignored). -/
def allowsExcess (d : MemoryDescriptor) : Prop :=
  d.excess_allowed = true ∨ d.maximum = 0

instance (d : MemoryDescriptor) : Decidable (allowsExcess d) := by
  unfold allowsExcess; infer_instance

theorem growthRefused_false_of_allows (d : MemoryDescriptor) (p o : Nat)
    (h : allowsExcess d) : growthRefused d p o = false := by
  unfold growthRefused
  rcases h with h | h <;> simp [h]

/-- A successful `PerformAllocation` pushes the fresh block onto the back of
the class's pool. -/
theorem performAllocation_success_pool (s : MMState) (i : Nat)
    (d : MemoryDescriptor) (hd : s.profile[i]? = some d)
    (hgate : growthRefused d (s.pool i).length (s.stat i).outstanding = false)
    (hlen : i < s.allocations.length) :
    (performAllocation s i).1 = true ∧
    (performAllocation s i).2.pool i = s.pool i ++ [s.nextAddr] := by
  unfold performAllocation
  simp only [hd, hgate, Bool.false_eq_true, if_false]
  refine ⟨trivial, ?_⟩
  show (s.allocations.set i (s.pool i ++ [s.nextAddr])).getD i [] = _
  exact getD_set_self _ _ _ _ hlen

/-- Core of C2: if some class at or after `index` (and within `fuel` steps)
fits the request and every class allows excess, the scan returns a block. -/
theorem allocateAux_isSome_of_fit (size : Nat) :
    ∀ (fuel : Nat) (s : MMState) (index : Nat),
      WF s →
      (∀ d ∈ s.profile, allowsExcess d) →
      (∃ k, index ≤ k ∧ k < index + fuel ∧
        ∃ dk, s.profile[k]? = some dk ∧ size ≤ dk.size) →
      (allocateAux size s index fuel).1.isSome = true := by
  intro fuel
  induction fuel with
  | zero =>
    intro s index _ _ hex
    rcases hex with ⟨k, hk1, hk2, _⟩
    omega
  | succ n ih =>
    intro s index hWF hall hex
    unfold allocateAux
    cases hd : s.profile[index]? with
    | none =>
      exfalso
      rcases hex with ⟨k, hk1, _, dk, hdk, _⟩
      have hklen : k < s.profile.length := (List.getElem?_eq_some_iff.mp hdk).1
      have hilen : s.profile.length ≤ index := by
        by_contra hc
        push_neg at hc
        rw [List.getElem?_eq_getElem hc] at hd
        cases hd
      omega
    | some d =>
      simp only []
      by_cases hsz : d.size < size
      · simp only [if_pos hsz]
        apply ih s (index + 1) hWF hall
        rcases hex with ⟨k, hk1, hk2, dk, hdk, hfit⟩
        have hkne : k ≠ index := by
          intro he
          subst he
          rw [hdk] at hd
          cases hd
          omega
        exact ⟨k, by omega, by omega, dk, hdk, hfit⟩
      · simp only [if_neg hsz]
        by_cases hpool : (s.pool index).isEmpty
        · have hmem : d ∈ s.profile := mem_of_getElemQ hd
          have hgate := growthRefused_false_of_allows d (s.pool index).length
            (s.stat index).outstanding (hall d hmem)
          have hidx : index < s.profile.length :=
            (List.getElem?_eq_some_iff.mp hd).1
          have hlen : index < s.allocations.length := by
            rw [hWF.2]; exact hidx
          have hsucc := performAllocation_success_pool s index d hd hgate hlen
          have hstep1 : (allocateStep s index).1 = true := by
            unfold allocateStep
            rw [if_pos hpool]
            exact hsucc.1
          have hstep2 : (allocateStep s index).2.pool index =
              s.pool index ++ [s.nextAddr] := by
            unfold allocateStep
            rw [if_pos hpool]
            exact hsucc.2
          simp only [hstep1, Bool.not_true, Bool.false_eq_true, if_false]
          rw [hstep2, List.getLast?_concat]
          rfl
        · have hstep1 : (allocateStep s index).1 = true := by
            unfold allocateStep
            rw [if_neg hpool]
          have hstep2 : (allocateStep s index).2 = s := by
            unfold allocateStep
            rw [if_neg hpool]
          simp only [hstep1, Bool.not_true, Bool.false_eq_true, if_false]
          rw [hstep2]
          have hne : s.pool index ≠ [] := by
            intro he
            rw [he] at hpool
            exact hpool rfl
          rcases Option.isSome_iff_exists.mp (List.getLast?_isSome.mpr hne)
            with ⟨b, hb⟩
          rw [hb]
          rfl

/-- Single-call form of C2. -/
theorem Allocate_isSome_of_fit (s : MMState) (size : Nat)
    (hWF : WF s) (hall : ∀ d ∈ s.profile, allowsExcess d)
    (hfit : ∃ dk ∈ s.profile, size ≤ dk.size) :
    (Allocate s size).1.isSome = true := by
  rcases hfit with ⟨dk, hmem, hsz⟩
  rcases getElemQ_of_mem hmem with ⟨k, hk⟩
  have hklen : k < s.profile.length := (List.getElem?_eq_some_iff.mp hk).1
  exact allocateAux_isSome_of_fit size s.profile.length s 0 hWF hall
    ⟨k, Nat.zero_le k, by omega, dk, hk, hsz⟩

/-- A sequence of `Allocate` calls, returning the results in order together
with the final state. -/
def allocateSeq : MMState → List Nat → List (Option Nat) × MMState
  | s, [] => ([], s)
  | s, sz :: rest =>
    ((Allocate s sz).1 :: (allocateSeq (Allocate s sz).2 rest).1,
      (allocateSeq (Allocate s sz).2 rest).2)

/-- C2: starting from any well-formed state whose every class allows excess
(`excess_allowed` true or `maximum == 0`), a sequence of `Allocate` calls
each requesting a size fitted by some class (in particular any size no
greater than the largest class size) never returns the `nullptr` failure
sentinel, the system allocator being assumed to succeed throughout. -/
theorem c2_allocate_never_fails (s : MMState) (sizes : List Nat)
    (hWF : WF s)
    (hall : ∀ d ∈ s.profile, allowsExcess d)
    (hfit : ∀ sz ∈ sizes, ∃ dk ∈ s.profile, sz ≤ dk.size) :
    ∀ r ∈ (allocateSeq s sizes).1, r.isSome = true := by
  induction sizes generalizing s with
  | nil =>
    intro r hr
    cases hr
  | cons sz rest ih =>
    intro r hr
    rcases List.mem_cons.mp hr with hr | hr
    · subst hr
      exact Allocate_isSome_of_fit s sz hWF hall
        (hfit sz (List.mem_cons_self sz rest))
    · have hWF2 := Allocate_WF s sz hWF
      have hprof := Allocate_profile s sz
      refine ih (Allocate s sz).2 hWF2 ?_ ?_ r hr
      · rw [hprof]; exact hall
      · intro sz2 hsz2
        rw [hprof]
        exact hfit sz2 (List.mem_cons_of_mem sz hsz2)

/-- Witness for `c2_allocate_never_fails`: two requests against a one-class
profile with `maximum = 0`; the first pops the pooled block, the second
grows the pool. -/
theorem c2_allocate_never_fails_witness :
    (WF c4State ∧
      (∀ d ∈ c4State.profile, allowsExcess d) ∧
      (∀ sz ∈ [10, 16], ∃ dk ∈ c4State.profile, sz ≤ dk.size)) ∧
    (∀ r ∈ (allocateSeq c4State [10, 16]).1, r.isSome = true) :=
  ⟨⟨by decide, by decide, by decide⟩,
    c2_allocate_never_fails c4State [10, 16] (by decide) (by decide)
      (by decide)⟩

/-- The accepting path of `Free` with intact markers and pool capacity left:
the block is pushed back onto the class's pool. -/
theorem Free_good_push (s : MMState) (a : FreeRequest) (mem : Nat → Nat)
    (d : MemoryDescriptor)
    (h24 : headerSize < a.p) (hlt : a.p < twoPow64)
    (hown : a.owner_ok = true)
    (hd : s.profile[a.index]? = some d)
    (hhm : a.header_marker = Header_Marker_Value)
    (htm : mem (blockOf a.p + headerSize + d.size) = Trailer_Marker_Value)
    (hcap : d.maximum = 0 ∨ (s.pool a.index).length < d.maximum) :
    Free s a mem =
      some (true,
        { s with
          statistics := s.statistics.set a.index
            { s.stat a.index with
              deallocations := (s.stat a.index).deallocations + 1,
              outstanding := if (s.stat a.index).outstanding > 0
                             then (s.stat a.index).outstanding - 1
                             else (s.stat a.index).outstanding },
          allocations := s.allocations.set a.index
            (s.pool a.index ++ [blockOf a.p]) }) := by
  have hidx : a.index < s.profile.length := (List.getElem?_eq_some_iff.mp hd).1
  have hwrap := free_wrap_check_passes a.p h24 hlt
  have hrange := free_range_check_passes s a.index hidx
  have hgood : ((a.header_marker != Header_Marker_Value) ||
      (mem (blockOf a.p + headerSize + d.size) != Trailer_Marker_Value)) = false := by
    simp [hhm, htm]
  have hcapb : (d.maximum == 0 ||
      decide ((s.pool a.index).length < d.maximum)) = true := by
    rcases hcap with h | h <;> simp [h]
  simp only [Free, hwrap, hown, hrange, hd, hgood, hcapb, Bool.not_true,
    Bool.false_eq_true, if_false, if_true]

/-- One scan step of `Allocate` over a class too small for the request. -/
theorem allocateAux_skip_small (size : Nat) (s : MMState) (index fuel : Nat)
    (d : MemoryDescriptor) (hd : s.profile[index]? = some d)
    (hsmall : d.size < size) :
    allocateAux size s index (fuel + 1) = allocateAux size s (index + 1) fuel := by
  conv_lhs => rw [allocateAux]
  simp only [hd, if_pos hsmall]

/-- The scan skips every class below `j + n` that is too small. -/
theorem allocateAux_skip_of_small (size : Nat) (s : MMState) :
    ∀ (n j extra : Nat),
      (∀ k dk, k < j + n → j ≤ k → s.profile[k]? = some dk → dk.size < size) →
      j + n ≤ s.profile.length →
      allocateAux size s j (n + extra) = allocateAux size s (j + n) extra := by
  intro n
  induction n with
  | zero =>
    intro j extra _ _
    simp
  | succ m ih =>
    intro j extra hsmall hle
    have hj : j < s.profile.length := by omega
    rcases (⟨s.profile[j], List.getElem?_eq_getElem hj⟩ :
      ∃ dj, s.profile[j]? = some dj) with ⟨dj, hdj⟩
    have harith : m + 1 + extra = m + extra + 1 := by omega
    rw [harith,
      allocateAux_skip_small size s j (m + extra) dj hdj
        (hsmall j dj (by omega) (Nat.le_refl j) hdj),
      ih (j + 1) extra
        (fun k dk hk1 hk2 hdk => hsmall k dk (by omega) (by omega) hdk)
        (by omega)]
    have harith2 : j + 1 + m = j + (m + 1) := by omega
    rw [harith2]

/-- The scan at a fitting class with a non-empty pool pops the back block. -/
theorem allocateAux_pop (size : Nat) (s : MMState) (index fuel : Nat)
    (d : MemoryDescriptor) (l : List Nat) (b : Nat)
    (hd : s.profile[index]? = some d) (hfit : ¬ d.size < size)
    (hpool : s.pool index = l ++ [b]) :
    allocateAux size s index (fuel + 1) =
      (some (b + headerSize),
        { s with
          statistics := s.statistics.set index (bumpAllocated (s.stat index)),
          allocations := s.allocations.set index l }) := by
  have hne : (s.pool index).isEmpty = false := by
    rw [hpool]
    simp
  have hstep : allocateStep s index = (true, s) := by
    unfold allocateStep
    rw [if_neg (by simp [hne])]
  unfold allocateAux
  simp only [hd, if_neg hfit, hstep, Bool.not_true, Bool.false_eq_true,
    if_false, hpool, List.getLast?_concat, List.dropLast_concat]

/-- C10: the engine performs no double-free detection.  For a block `b` of
class `i` currently sitting in its free pool with intact header and trailer
markers (and capacity left), calling `Free` on its payload pointer again
returns `true`, increments the class's `deallocations` a second time, and
pushes the same block address onto the pool again, so the pool holds
duplicate entries; and when `b` was the only pooled block of the first class
fitting its size, the next two `Allocate` calls hand the same payload
pointer to two different callers. -/
theorem c10_no_double_free_detection (s : MMState) (i b : Nat)
    (d : MemoryDescriptor) (mem : Nat → Nat)
    (hWF : WF s) (hd : s.profile[i]? = some d)
    (hb : 0 < b) (hlt : b + headerSize < twoPow64)
    (hmem : b ∈ s.pool i)
    (htm : mem (b + headerSize + d.size) = Trailer_Marker_Value)
    (hcap : d.maximum = 0 ∨ (s.pool i).length < d.maximum) :
    ∃ s1,
      Free s ⟨b + headerSize, true, Header_Marker_Value, i⟩ mem =
        some (true, s1) ∧
      (s1.stat i).deallocations = (s.stat i).deallocations + 1 ∧
      s1.pool i = s.pool i ++ [b] ∧
      2 ≤ (s1.pool i).count b ∧
      (s.pool i = [b] →
        (∀ k dk, k < i → s.profile[k]? = some dk → dk.size < d.size) →
        (Allocate s1 d.size).1 = some (b + headerSize) ∧
        (Allocate (Allocate s1 d.size).2 d.size).1 = some (b + headerSize)) := by
  have hidx : i < s.profile.length := (List.getElem?_eq_some_iff.mp hd).1
  have hstatlen : i < s.statistics.length := by rw [hWF.1]; exact hidx
  have halloclen : i < s.allocations.length := by rw [hWF.2]; exact hidx
  have hblock : blockOf (b + headerSize) = b := by
    have h1 := blockOf_eq_sub (b + headerSize) (Nat.le_add_left _ _) hlt
    omega
  have hfree := Free_good_push s ⟨b + headerSize, true, Header_Marker_Value, i⟩
    mem d (by show headerSize < b + headerSize; omega) hlt rfl hd rfl
    (by show mem (blockOf (b + headerSize) + headerSize + d.size) = _
        rw [hblock]; exact htm) hcap
  rw [hblock] at hfree
  refine ⟨_, hfree, ?_, ?_, ?_, ?_⟩
  · show ((s.statistics.set i _).getD i zeroStatistics).deallocations = _
    rw [getD_set_self _ _ _ _ hstatlen]
  · show (s.allocations.set i _).getD i [] = _
    rw [getD_set_self _ _ _ _ halloclen]
  · show 2 ≤ ((s.allocations.set i _).getD i []).count b
    rw [getD_set_self _ _ _ _ halloclen, List.count_append]
    have h1 : 1 ≤ (s.pool i).count b := List.one_le_count_iff.mpr hmem
    show 2 ≤ List.count b (s.pool i) + List.count b [b]
    have h2 : ([b] : List Nat).count b = 1 := by simp
    omega
  · intro hone hfirst
    set s1 : MMState :=
      { s with
        statistics := s.statistics.set i
          { s.stat i with
            deallocations := (s.stat i).deallocations + 1,
            outstanding := if (s.stat i).outstanding > 0
                           then (s.stat i).outstanding - 1
                           else (s.stat i).outstanding },
        allocations := s.allocations.set i (s.pool i ++ [b]) } with hs1
    have hprof1 : s1.profile = s.profile := rfl
    have hd1 : s1.profile[i]? = some d := hd
    have hpool1 : s1.pool i = [b, b] := by
      show (s.allocations.set i _).getD i [] = _
      rw [getD_set_self _ _ _ _ halloclen, hone]
      rfl
    have halloclen1 : i < s1.allocations.length := by
      show i < (s.allocations.set i _).length
      rw [List.length_set]
      exact halloclen
    have hL : s1.profile.length = s.profile.length := rfl
    have hfuel : s.profile.length = i + (s.profile.length - i - 1 + 1) := by
      omega
    have hskip1 : allocateAux d.size s1 0 s1.profile.length =
        allocateAux d.size s1 i (s.profile.length - i - 1 + 1) := by
      rw [hL, hfuel]
      have := allocateAux_skip_of_small d.size s1 i 0
        (s.profile.length - i - 1 + 1)
        (fun k dk hk1 _ hdk => hfirst k dk (by omega) hdk)
        (by rw [hL]; omega)
      simpa using this
    have hpop1 := allocateAux_pop d.size s1 i (s.profile.length - i - 1) d [b] b
      hd1 (by omega) (by rw [hpool1]; rfl)
    have halloc1 : Allocate s1 d.size =
        (some (b + headerSize),
          { s1 with
            statistics := s1.statistics.set i (bumpAllocated (s1.stat i)),
            allocations := s1.allocations.set i [b] }) := by
      show allocateAux d.size s1 0 s1.profile.length = _
      rw [hskip1, hpop1]
    set s2 : MMState :=
      { s1 with
        statistics := s1.statistics.set i (bumpAllocated (s1.stat i)),
        allocations := s1.allocations.set i [b] } with hs2
    have hd2 : s2.profile[i]? = some d := hd
    have hpool2 : s2.pool i = [b] := by
      show (s1.allocations.set i _).getD i [] = _
      rw [getD_set_self _ _ _ _ halloclen1]
    have hL2 : s2.profile.length = s.profile.length := rfl
    have hskip2 : allocateAux d.size s2 0 s2.profile.length =
        allocateAux d.size s2 i (s.profile.length - i - 1 + 1) := by
      rw [hL2, hfuel]
      have := allocateAux_skip_of_small d.size s2 i 0
        (s.profile.length - i - 1 + 1)
        (fun k dk hk1 _ hdk => hfirst k dk (by omega) hdk)
        (by rw [hL2]; omega)
      simpa using this
    have hpop2 := allocateAux_pop d.size s2 i (s.profile.length - i - 1) d [] b
      hd2 (by omega) (by rw [hpool2]; rfl)
    constructor
    · rw [halloc1]
    · rw [halloc1]
      show (allocateAux d.size s2 0 s2.profile.length).1 = _
      rw [hskip2, hpop2]

/-- State for the C10 witness: one class of size 16 with unlimited retention
and block 100 sitting in its free pool. -/
def c10State : MMState :=
  { profile := [⟨16, 0, 0, true⟩],
    statistics := [{ zeroStatistics with size := 16 }],
    allocations := [[100]], nextAddr := 200, heapFreed := [] }

/-- Witness for `c10_no_double_free_detection`: double-freeing block 100. -/
theorem c10_no_double_free_detection_witness :
    (WF c10State ∧ c10State.profile[0]? = some ⟨16, 0, 0, true⟩ ∧
      (0 : Nat) < 100 ∧ 100 + headerSize < twoPow64 ∧
      100 ∈ c10State.pool 0 ∧
      (fun _ => Trailer_Marker_Value) (100 + headerSize + 16) =
        Trailer_Marker_Value ∧
      ((⟨16, 0, 0, true⟩ : MemoryDescriptor).maximum = 0 ∨
        (c10State.pool 0).length < (⟨16, 0, 0, true⟩ : MemoryDescriptor).maximum)) ∧
    (∃ s1,
      Free c10State ⟨100 + headerSize, true, Header_Marker_Value, 0⟩
          (fun _ => Trailer_Marker_Value) = some (true, s1) ∧
      (s1.stat 0).deallocations = (c10State.stat 0).deallocations + 1 ∧
      s1.pool 0 = c10State.pool 0 ++ [100] ∧
      2 ≤ (s1.pool 0).count 100 ∧
      (c10State.pool 0 = [100] →
        (∀ k dk, k < 0 → c10State.profile[k]? = some dk → dk.size < 16) →
        (Allocate s1 16).1 = some (100 + headerSize) ∧
        (Allocate (Allocate s1 16).2 16).1 = some (100 + headerSize))) :=
  ⟨⟨by decide, by decide, by decide, by decide, by decide, rfl, Or.inl rfl⟩,
    c10_no_double_free_detection c10State 0 100 ⟨16, 0, 0, true⟩
      (fun _ => Trailer_Marker_Value) (by decide) (by decide) (by decide)
      (by decide) (by decide) rfl (Or.inl rfl)⟩

theorem preallocate_profile (i : Nat) :
    ∀ (n : Nat) (s : MMState), (preallocate i s n).profile = s.profile := by
  intro n
  induction n with
  | zero => intro s; rfl
  | succ m ih =>
    intro s
    show (preallocate i (performAllocation s i).2 m).profile = _
    rw [ih, performAllocation_profile]

theorem constructStep_profile (s : MMState) (i : Nat) :
    (constructStep s i).profile =
      match s.profile[i]? with
      | none => s.profile
      | some d => s.profile.set i (repairDescriptor d) := by
  unfold constructStep
  cases hd : s.profile[i]? with
  | none => rfl
  | some d =>
    simp only []
    rw [preallocate_profile]

theorem constructLoop_getElemQ :
    ∀ (k j : Nat) (s : MMState) (m : Nat),
      (constructLoop s (List.range' j k)).profile[m]? =
        if j ≤ m ∧ m < j + k then (s.profile[m]?).map repairDescriptor
        else s.profile[m]? := by
  intro k
  induction k with
  | zero =>
    intro j s m
    rw [if_neg (by omega)]
    rfl
  | succ t ih =>
    intro j s m
    rw [List.range'_succ]
    show (constructLoop (constructStep s j) (List.range' (j + 1) t)).profile[m]? = _
    rw [ih (j + 1) (constructStep s j) m]
    have hstep := constructStep_profile s j
    by_cases hmj : m = j
    · subst hmj
      rw [if_neg (by omega), if_pos ⟨Nat.le_refl m, by omega⟩]
      cases hd : s.profile[m]? with
      | none =>
        rw [hstep, hd]
        simp [hd]
      | some d =>
        have hlen : m < s.profile.length := (List.getElem?_eq_some_iff.mp hd).1
        rw [hstep, hd]
        rw [List.getElem?_set_self (by exact hlen)]
        rfl
    · have hm2 : (constructStep s j).profile[m]? = s.profile[m]? := by
        rw [hstep]
        cases hd : s.profile[j]? with
        | none => rfl
        | some d => rw [List.getElem?_set_ne (by omega)]
      rw [hm2]
      by_cases hin : j + 1 ≤ m ∧ m < j + 1 + t
      · rw [if_pos hin, if_pos ⟨by omega, by omega⟩]
      · rw [if_neg hin, if_neg (by omega)]

theorem constructFrom_profile (q : List MemoryDescriptor) (a : Nat) :
    (constructFrom q a).profile = q.map repairDescriptor := by
  apply List.ext_getElem?
  intro m
  unfold constructFrom
  rw [List.range_eq_range']
  rw [constructLoop_getElemQ q.length 0 _ m]
  rw [List.getElem?_map]
  by_cases hm : m < q.length
  · rw [if_pos ⟨Nat.zero_le m, by omega⟩]
  · rw [if_neg (by omega)]
    have h1 : (q : List MemoryDescriptor)[m]? = none := by
      rw [List.getElem?_eq_none_iff]
      omega
    rw [h1]
    rfl

theorem repairDescriptor_size (d : MemoryDescriptor) :
    (repairDescriptor d).size = d.size := by
  unfold repairDescriptor
  split <;> rfl

theorem sortedBySize_map_repair (l : List MemoryDescriptor)
    (h : SortedBySize l) : SortedBySize (l.map repairDescriptor) := by
  unfold SortedBySize at *
  rw [List.pairwise_map]
  refine h.imp ?_
  intro a b hab
  rw [repairDescriptor_size, repairDescriptor_size]
  exact hab

theorem Free_profile (s : MMState) (a : FreeRequest) (mem : Nat → Nat)
    (r : Bool × MMState) (h : Free s a mem = some r) :
    r.2.profile = s.profile := by
  simp only [Free] at h
  split at h
  · cases h; rfl
  · split at h
    · cases h; rfl
    · split at h
      · cases h; rfl
      · split at h
        · cases h
        · split at h
          · cases h; rfl
          · split at h
            · cases h; rfl
            · cases h; rfl

/-- C9 (amended): the class table built by the constructor is the
`std::sort`-ed profile with the `maximum < minimum` repair applied to each
entry: a permutation of the (repaired) input, non-decreasing in `size`, with
duplicate sizes kept as independent classes (the table has exactly one entry
per input descriptor); and no later operation (`Allocate`, `Free`) ever
changes the table.  The order among equal-size descriptors is whatever the
unstable `std::sort` produced — the claim's "ties broken by original order"
does not hold, see `c9_counterexample_unstable_sort`. -/
theorem c9_sorted_table (input sorted : List MemoryDescriptor)
    (startAddr : Nat) (h : StdSortOutcome input sorted) :
    (constructFrom sorted startAddr).profile = sorted.map repairDescriptor ∧
    SortedBySize (constructFrom sorted startAddr).profile ∧
    List.Perm (input.map repairDescriptor)
      (constructFrom sorted startAddr).profile ∧
    (constructFrom sorted startAddr).profile.length = input.length ∧
    (∀ s2 size, (Allocate s2 size).2.profile = s2.profile) ∧
    (∀ s2 a mem r, Free s2 a mem = some r → r.2.profile = s2.profile) := by
  have hp := constructFrom_profile sorted startAddr
  refine ⟨hp, ?_, ?_, ?_, ?_, ?_⟩
  · rw [hp]
    exact sortedBySize_map_repair sorted h.2
  · rw [hp]
    exact h.1.map repairDescriptor
  · rw [hp, List.length_map]
    exact (h.1.length_eq).symm
  · intro s2 size
    exact Allocate_profile s2 size
  · intro s2 a mem r hr
    exact Free_profile s2 a mem r hr

/-- Two equal-size descriptors distinguishable by their `minimum` fields. -/
def dupA : MemoryDescriptor := ⟨5, 1, 0, true⟩

/-- See `dupA`. -/
def dupB : MemoryDescriptor := ⟨5, 2, 0, true⟩

/-- C9 counterexample: the constructor sorts with `std::sort`, whose
contract (a sorted permutation) does not promise stability.  The output
`[dupB, dupA]` is an admissible `std::sort` result for the input
`[dupA, dupB]` (two classes of equal size 5), and the table built from it
differs from the spec's stable order, so "ties broken by original order" is
not guaranteed by the code. -/
theorem c9_counterexample_unstable_sort :
    StdSortOutcome [dupA, dupB] [dupB, dupA] ∧
    (constructFrom [dupB, dupA] 0).profile ≠
      (stableSortBySize [dupA, dupB]).map repairDescriptor := by
  refine ⟨⟨?_, ?_⟩, ?_⟩
  · decide
  · decide
  · decide

/-- Witness for `c9_sorted_table` on the profile `[{64,...}, {16,...}]`
sorted to `[{16,...}, {64,...}]`. -/
theorem c9_sorted_table_witness :
    StdSortOutcome [⟨64, 0, 2, false⟩, ⟨16, 1, 0, true⟩]
      [⟨16, 1, 0, true⟩, ⟨64, 0, 2, false⟩] ∧
    ((constructFrom [⟨16, 1, 0, true⟩, ⟨64, 0, 2, false⟩] 0).profile =
        [⟨16, 1, 0, true⟩, ⟨64, 0, 2, false⟩].map repairDescriptor ∧
      SortedBySize (constructFrom [⟨16, 1, 0, true⟩, ⟨64, 0, 2, false⟩] 0).profile ∧
      List.Perm ([⟨64, 0, 2, false⟩, ⟨16, 1, 0, true⟩].map repairDescriptor)
        (constructFrom [⟨16, 1, 0, true⟩, ⟨64, 0, 2, false⟩] 0).profile ∧
      (constructFrom [⟨16, 1, 0, true⟩, ⟨64, 0, 2, false⟩] 0).profile.length =
        ([⟨64, 0, 2, false⟩, ⟨16, 1, 0, true⟩] : List MemoryDescriptor).length ∧
      (∀ s2 size, (Allocate s2 size).2.profile = s2.profile) ∧
      (∀ s2 a mem r, Free s2 a mem = some r → r.2.profile = s2.profile)) :=
  ⟨⟨by decide, by decide⟩,
    c9_sorted_table [⟨64, 0, 2, false⟩, ⟨16, 1, 0, true⟩]
      [⟨16, 1, 0, true⟩, ⟨64, 0, 2, false⟩] 0 ⟨by decide, by decide⟩⟩

/-- The outcome C1 asserts for a successful `Allocate` whose scan started at
`index0` and was satisfied by class `j`: `j` fits the request and its pool
was non-empty or growable; the chosen class's statistics are bumped
(`allocations++`, `outstanding++`, running `max_outstanding`); every class
below the scan start is untouched; every scanned class below `j` is
untouched if too small, and otherwise was empty with growth refused and had
exactly one `unfulfilled` increment; every class after `j` is untouched
(scanning stopped at `j`); the returned payload pointer comes from `j`'s
pool (its back element, or the freshly grown block when the pool was
empty); and the profile and heap-release log are unchanged. -/
def AllocOutcome (s : MMState) (size p : Nat) (s' : MMState)
    (index0 j : Nat) : Prop :=
  index0 ≤ j ∧
  (∃ d, s.profile[j]? = some d ∧ size ≤ d.size ∧
    (s.pool j ≠ [] ∨
      growthRefused d (s.pool j).length (s.stat j).outstanding = false) ∧
    s'.stat j = bumpAllocated (s.stat j) ∧
    (∃ b, p = b + headerSize ∧
      ((s.pool j ≠ [] ∧ (s.pool j).getLast? = some b ∧
          s'.pool j = (s.pool j).dropLast) ∨
        (s.pool j = [] ∧ b = s.nextAddr ∧ s'.pool j = [])))) ∧
  (∀ k, k < index0 → s'.stat k = s.stat k ∧ s'.pool k = s.pool k) ∧
  (∀ k dk, index0 ≤ k → k < j → s.profile[k]? = some dk →
    (dk.size < size → s'.stat k = s.stat k ∧ s'.pool k = s.pool k) ∧
    (size ≤ dk.size →
      s.pool k = [] ∧
      growthRefused dk (s.pool k).length (s.stat k).outstanding = true ∧
      s'.stat k = { s.stat k with unfulfilled := (s.stat k).unfulfilled + 1 } ∧
      s'.pool k = s.pool k)) ∧
  (∀ k, j < k → s'.stat k = s.stat k ∧ s'.pool k = s.pool k) ∧
  s'.profile = s.profile ∧ s'.heapFreed = s.heapFreed

/-- Scan equation: fitting class, empty pool, growth refused — bump
`unfulfilled` and move on. -/
theorem allocateAux_unfulfilled (size : Nat) (s : MMState) (index fuel : Nat)
    (d : MemoryDescriptor) (hd : s.profile[index]? = some d)
    (hfit : ¬ d.size < size) (hfail : (allocateStep s index).1 = false) :
    allocateAux size s index (fuel + 1) =
      allocateAux size (bumpUnfulfilled (allocateStep s index).2 index)
        (index + 1) fuel := by
  conv_lhs => rw [allocateAux]
  simp only [hd, if_neg hfit, hfail, Bool.not_false, if_true]

/-- Scan equation: fitting class, empty pool, growth allowed — the freshly
grown block is popped straight back off the pool. -/
theorem allocateAux_grow_pop (size : Nat) (s : MMState) (index fuel : Nat)
    (d : MemoryDescriptor) (hd : s.profile[index]? = some d)
    (hfit : ¬ d.size < size) (hp : s.pool index = [])
    (hgate : growthRefused d (s.pool index).length (s.stat index).outstanding
      = false)
    (hlen : index < s.allocations.length) :
    allocateAux size s index (fuel + 1) =
      (some (s.nextAddr + headerSize),
        { s with
          statistics := s.statistics.set index (bumpAllocated (s.stat index)),
          allocations := s.allocations.set index [],
          nextAddr := s.nextAddr + (headerSize + d.size + trailerSize) }) := by
  have hperf : performAllocation s index =
      (true,
        { s with
          allocations := s.allocations.set index (s.pool index ++ [s.nextAddr]),
          nextAddr := s.nextAddr + (headerSize + d.size + trailerSize) }) := by
    unfold performAllocation
    simp only [hd, hgate, Bool.false_eq_true, if_false]
  have hstep : allocateStep s index =
      (true,
        { s with
          allocations := s.allocations.set index (s.pool index ++ [s.nextAddr]),
          nextAddr := s.nextAddr + (headerSize + d.size + trailerSize) }) := by
    unfold allocateStep
    rw [if_pos (by rw [hp]; rfl), hperf]
  have hpoolX : ({ s with
      allocations := s.allocations.set index (s.pool index ++ [s.nextAddr]),
      nextAddr := s.nextAddr + (headerSize + d.size + trailerSize) } :
        MMState).pool index = [s.nextAddr] := by
    show (s.allocations.set index (s.pool index ++ [s.nextAddr])).getD index [] = _
    rw [getD_set_self _ _ _ _ hlen, hp]
    rfl
  have hl2 : ([s.nextAddr] : List Nat).dropLast = [] := rfl
  have hl1 : ([s.nextAddr] : List Nat).getLast? = some s.nextAddr := rfl
  conv_lhs => rw [allocateAux]
  simp only [hd, if_neg hfit, hstep, Bool.not_true, Bool.false_eq_true,
    if_false, hpoolX, hl1, hl2, List.set_set]
  rfl

/-- A failed pool-or-grow step means the pool was empty, the growth gate
refused, and the state is untouched. -/
theorem allocateStep_false (s : MMState) (i : Nat) (d : MemoryDescriptor)
    (hd : s.profile[i]? = some d) (h : (allocateStep s i).1 = false) :
    s.pool i = [] ∧
    growthRefused d (s.pool i).length (s.stat i).outstanding = true ∧
    (allocateStep s i).2 = s := by
  by_cases hp : (s.pool i).isEmpty
  · have hpe : s.pool i = [] := List.isEmpty_iff.mp hp
    have hstep : allocateStep s i = performAllocation s i := by
      unfold allocateStep
      rw [if_pos hp]
    rw [hstep] at h ⊢
    by_cases hg : growthRefused d (s.pool i).length (s.stat i).outstanding = true
    · have hperf : performAllocation s i = (false, s) := by
        unfold performAllocation
        simp only [hd, hg, if_true]
      exact ⟨hpe, hg, by rw [hperf]⟩
    · exfalso
      have hg2 : growthRefused d (s.pool i).length (s.stat i).outstanding
          = false := by
        cases hgb : growthRefused d (s.pool i).length (s.stat i).outstanding
        · rfl
        · exact absurd hgb hg
      have hperf : (performAllocation s i).1 = true := by
        unfold performAllocation
        simp only [hd, hg2, Bool.false_eq_true, if_false]
      rw [hperf] at h
      cases h
  · exfalso
    have hstep : allocateStep s i = (true, s) := by
      unfold allocateStep
      rw [if_neg hp]
    rw [hstep] at h
    cases h

/-- The chosen-class characterisation of a successful scan: the induction
behind C1. -/
theorem allocateAux_some_outcome (size : Nat) :
    ∀ (fuel : Nat) (s : MMState) (index p : Nat) (s' : MMState),
      WF s →
      allocateAux size s index fuel = (some p, s') →
      ∃ j, AllocOutcome s size p s' index j := by
  intro fuel
  induction fuel with
  | zero =>
    intro s index p s' _ h
    rw [allocateAux, Prod.mk.injEq] at h
    exact absurd h.1 (by simp)
  | succ n ih =>
    intro s index p s' hWF h
    cases hd : s.profile[index]? with
    | none =>
      rw [allocateAux] at h
      simp only [hd] at h
      rw [Prod.mk.injEq] at h
      exact absurd h.1 (by simp)
    | some d =>
      have hidx : index < s.profile.length :=
        (List.getElem?_eq_some_iff.mp hd).1
      have hstatlen : index < s.statistics.length := by rw [hWF.1]; exact hidx
      have halloclen : index < s.allocations.length := by rw [hWF.2]; exact hidx
      by_cases hsz : d.size < size
      · rw [allocateAux_skip_small size s index n d hd hsz] at h
        obtain ⟨j, hj0, hex, hbelow, hmid, habove, hprof, hheap⟩ :=
          ih s (index + 1) p s' hWF h
        refine ⟨j, by omega, hex, ?_, ?_, habove, hprof, hheap⟩
        · intro k hk
          exact hbelow k (by omega)
        · intro k dk hk1 hk2 hdk
          by_cases hki : k = index
          · subst hki
            rw [hd] at hdk
            injection hdk with hdd
            subst hdd
            refine ⟨fun _ => hbelow k (by omega), fun hge => ?_⟩
            exfalso
            omega
          · exact hmid k dk (by omega) hk2 hdk
      · by_cases hstep1 : (allocateStep s index).1 = true
        · by_cases hp : s.pool index = []
          · -- empty pool, growth succeeded: fresh block popped
            have hgate : growthRefused d (s.pool index).length
                (s.stat index).outstanding = false := by
              cases hgb : growthRefused d (s.pool index).length
                  (s.stat index).outstanding
              · rfl
              · exfalso
                have hfail : (allocateStep s index).1 = false := by
                  unfold allocateStep
                  rw [if_pos (by rw [hp]; rfl)]
                  unfold performAllocation
                  simp only [hd, hgb, if_true]
                rw [hfail] at hstep1
                cases hstep1
            rw [allocateAux_grow_pop size s index n d hd hsz hp hgate
              halloclen, Prod.mk.injEq] at h
            obtain ⟨h1, h2⟩ := h
            injection h1 with h1
            subst h1
            subst h2
            refine ⟨index, Nat.le_refl index,
              ⟨d, hd, by omega, Or.inr hgate, ?_, s.nextAddr, rfl,
                Or.inr ⟨hp, rfl, ?_⟩⟩, ?_, ?_, ?_, rfl, rfl⟩
            · show (s.statistics.set index (bumpAllocated (s.stat index))).getD
                index zeroStatistics = _
              exact getD_set_self _ _ _ _ hstatlen
            · show (s.allocations.set index []).getD index [] = _
              exact getD_set_self _ _ _ _ halloclen
            · intro k hk
              refine ⟨?_, ?_⟩
              · show (s.statistics.set index _).getD k zeroStatistics = _
                exact getD_set_ne _ _ _ _ _ (by omega)
              · show (s.allocations.set index _).getD k [] = _
                exact getD_set_ne _ _ _ _ _ (by omega)
            · intro k dk hk1 hk2 _
              exfalso
              omega
            · intro k hk
              refine ⟨?_, ?_⟩
              · show (s.statistics.set index _).getD k zeroStatistics = _
                exact getD_set_ne _ _ _ _ _ (by omega)
              · show (s.allocations.set index _).getD k [] = _
                exact getD_set_ne _ _ _ _ _ (by omega)
          · -- non-empty pool: back block popped
            have hdecomp : s.pool index =
                (s.pool index).dropLast ++ [(s.pool index).getLast hp] :=
              (List.dropLast_append_getLast hp).symm
            rw [allocateAux_pop size s index n d (s.pool index).dropLast
              ((s.pool index).getLast hp) hd hsz hdecomp,
              Prod.mk.injEq] at h
            obtain ⟨h1, h2⟩ := h
            injection h1 with h1
            subst h1
            subst h2
            refine ⟨index, Nat.le_refl index,
              ⟨d, hd, by omega, Or.inl hp, ?_,
                (s.pool index).getLast hp, rfl,
                Or.inl ⟨hp, List.getLast?_eq_getLast _ hp, ?_⟩⟩,
              ?_, ?_, ?_, rfl, rfl⟩
            · show (s.statistics.set index (bumpAllocated (s.stat index))).getD
                index zeroStatistics = _
              exact getD_set_self _ _ _ _ hstatlen
            · show (s.allocations.set index _).getD index [] = _
              exact getD_set_self _ _ _ _ halloclen
            · intro k hk
              refine ⟨?_, ?_⟩
              · show (s.statistics.set index _).getD k zeroStatistics = _
                exact getD_set_ne _ _ _ _ _ (by omega)
              · show (s.allocations.set index _).getD k [] = _
                exact getD_set_ne _ _ _ _ _ (by omega)
            · intro k dk hk1 hk2 _
              exfalso
              omega
            · intro k hk
              refine ⟨?_, ?_⟩
              · show (s.statistics.set index _).getD k zeroStatistics = _
                exact getD_set_ne _ _ _ _ _ (by omega)
              · show (s.allocations.set index _).getD k [] = _
                exact getD_set_ne _ _ _ _ _ (by omega)
        · -- step failed: unfulfilled++ and continue
          have hstep0 : (allocateStep s index).1 = false := by
            cases hsb : (allocateStep s index).1
            · rfl
            · exact absurd hsb hstep1
          obtain ⟨hpool0, hgate, hstepeq⟩ := allocateStep_false s index d hd
            hstep0
          rw [allocateAux_unfulfilled size s index n d hd hsz hstep0,
            hstepeq] at h
          have hWF2 : WF (bumpUnfulfilled s index) :=
            bumpUnfulfilled_WF s index hWF
          obtain ⟨j, hj0, hex, hbelow, hmid, habove, hprof, hheap⟩ :=
            ih (bumpUnfulfilled s index) (index + 1) p s' hWF2 h
          have hstat2ne : ∀ k, k ≠ index →
              (bumpUnfulfilled s index).stat k = s.stat k := by
            intro k hk
            show (s.statistics.set index _).getD k zeroStatistics = _
            exact getD_set_ne _ _ _ _ _ (fun he => hk he.symm)
          have hstat2self : (bumpUnfulfilled s index).stat index =
              { s.stat index with
                unfulfilled := (s.stat index).unfulfilled + 1 } := by
            show (s.statistics.set index _).getD index zeroStatistics = _
            exact getD_set_self _ _ _ _ hstatlen
          refine ⟨j, by omega, ?_, ?_, ?_, ?_, hprof, hheap⟩
          · obtain ⟨dj, hdj, hfitj, havail, hstatj, b, hpb, hcase⟩ := hex
            rw [hstat2ne j (by omega)] at havail hstatj
            exact ⟨dj, hdj, hfitj, havail, hstatj, b, hpb, hcase⟩
          · intro k hk
            have hb := hbelow k (by omega)
            rw [hstat2ne k (by omega)] at hb
            exact hb
          · intro k dk hk1 hk2 hdk
            by_cases hki : k = index
            · subst hki
              rw [hd] at hdk
              injection hdk with hdd
              subst hdd
              refine ⟨fun hlt => absurd hlt hsz, fun _ => ?_⟩
              have hb := hbelow k (by omega)
              rw [hstat2self] at hb
              exact ⟨hpool0, hgate, hb.1, hb.2⟩
            · have hm := hmid k dk (by omega) hk2 hdk
              rw [hstat2ne k hki] at hm
              exact hm
          · intro k hk
            have hb := habove k hk
            rw [hstat2ne k (by omega)] at hb
            exact hb

/-- C1: whenever `Allocate(size)` returns a pointer, the block comes from
the class `j` with the smallest index whose size fits the request and whose
free pool was non-empty or could be grown; scanning stops at `j` (no later
class's statistics or pool is touched); `j`'s statistics are updated
(`allocations++`, `outstanding++`,
`max_outstanding := max(max_outstanding, outstanding)` — see
`bumpAllocated`); and every earlier class whose size also fits was
necessarily empty with growth refused and has its `unfulfilled` counter
incremented by exactly one, even though the request succeeds from `j`.
(`AllocOutcome` spells out all of these conjuncts; minimality of `j` is its
scanned-interval conjunct: every fitting class before `j` was empty with
growth refused.) -/
theorem c1_allocate_smallest_class (s : MMState) (size p : Nat) (s' : MMState)
    (hWF : WF s) (h : Allocate s size = (some p, s')) :
    ∃ j, AllocOutcome s size p s' 0 j :=
  allocateAux_some_outcome size s.profile.length s 0 p s' hWF h

/-- State for the C1 witness: class 0 (size 16) is exhausted with
`maximum = 1`, `excess_allowed = false`, and one outstanding block; class 1
(size 64) has block 300 pooled.  `Allocate(10)` records `unfulfilled` on
class 0 and returns class 1's block. -/
def c1State : MMState :=
  { profile := [⟨16, 0, 1, false⟩, ⟨64, 0, 0, true⟩],
    statistics := [{ zeroStatistics with
        size := 16, allocations := 1, outstanding := 1, max_outstanding := 1 },
      { zeroStatistics with size := 64 }],
    allocations := [[], [300]], nextAddr := 400, heapFreed := [] }

/-- Witness for `c1_allocate_smallest_class`. -/
theorem c1_allocate_smallest_class_witness :
    (WF c1State ∧
      Allocate c1State 10 = (some (300 + headerSize), (Allocate c1State 10).2)) ∧
    (∃ j, AllocOutcome c1State 10 (300 + headerSize) (Allocate c1State 10).2 0 j) :=
  ⟨⟨by decide, by decide⟩,
    c1_allocate_smallest_class c1State 10 (300 + headerSize)
      (Allocate c1State 10).2 (by decide) (by decide)⟩

end MemMgr
